import Mathlib

/-!
Verification of the technical-indicator computation engine of
`services/agent0-service/data_providers.py` (functions `compute_technicals`
and `format_technicals`).

Modelling conventions:
* Python floats are modelled as exact rationals (`ℚ`); every arithmetic
  operation of the engine except the Bollinger standard deviation stays in
  `ℚ`.  The standard deviation (`pandas` `rolling(20).std()`, a square root)
  is taken in `ℝ` via `Real.sqrt`.
* `round(x, d)` (Python 3 banker's rounding) is modelled as exact
  round-half-to-even on the scaled value.
* pandas operations are translated pointwise: `diff` produces a leading
  `NaN` which `where(cond, 0.0)` immediately replaces by `0.0` (a `NaN`
  comparison is false), so the gain/loss series starts with `0`;
  `rolling(k).mean().iloc[-1]` is the arithmetic mean of the trailing `k`
  entries; `ewm(span, adjust=False).mean()` is the recursive EMA seeded with
  the first value and `α = 2/(span+1)`.
* `Optional[float]` becomes `Option ℚ`; a `None` field stays `none`.
-/

namespace JaxTrading

/-- One OHLCV bar (`@dataclass Bar`).  The `open` field is renamed
`open_` because `open` is a Lean keyword. -/
structure Bar where
  time : String
  open_ : ℚ
  high : ℚ
  low : ℚ
  close : ℚ
  volume : ℚ

/-- The engine's output record (`@dataclass Technicals`); every indicator
field is independently nullable, `bars_used` always populated. -/
structure Technicals where
  rsi_14 : Option ℚ := none
  macd : Option ℚ := none
  macd_signal : Option ℚ := none
  macd_hist : Option ℚ := none
  sma_20 : Option ℚ := none
  sma_50 : Option ℚ := none
  bb_upper : Option ℚ := none
  bb_lower : Option ℚ := none
  bb_pct : Option ℚ := none
  volume_ratio : Option ℚ := none
  trend : Option String := none
  bars_used : ℕ := 0
  deriving Repr, DecidableEq

/-- Round a rational to the nearest integer, ties to even
(Python 3 `round` on an exactly-represented value). -/
def roundHalfEvenZ (q : ℚ) : ℤ :=
  let f : ℤ := ⌊q⌋
  if q - f < 1 / 2 then f
  else if (1 : ℚ) / 2 < q - f then f + 1
  else if f % 2 = 0 then f else f + 1

/-- Python `round(q, d)` over exact rationals. -/
def roundTo (d : ℕ) (q : ℚ) : ℚ :=
  (roundHalfEvenZ (q * 10 ^ d) : ℚ) / 10 ^ d

/-- Round a real to the nearest integer, ties to even. -/
noncomputable def roundHalfEvenZR (x : ℝ) : ℤ :=
  let f : ℤ := ⌊x⌋
  if x - f < 1 / 2 then f
  else if (1 : ℝ) / 2 < x - f then f + 1
  else if f % 2 = 0 then f else f + 1

/-- Python `round(x, d)` for the real-valued Bollinger quantities; the
result is an exact decimal, hence rational. -/
noncomputable def roundToR (d : ℕ) (x : ℝ) : ℚ :=
  (roundHalfEvenZR (x * 10 ^ d) : ℚ) / 10 ^ d

/-- Consecutive differences of a series (`Series.diff`, without the leading
`NaN` slot — see `gains`/`losses` for how the `NaN` slot re-enters as `0`). -/
def deltas : List ℚ → List ℚ
  | x :: y :: rest => (y - x) :: deltas (y :: rest)
  | _ => []

/-- Trailing `k` entries of a series (the window of
`rolling(k)` at the last position). -/
def lastN (k : ℕ) (xs : List ℚ) : List ℚ := xs.drop (xs.length - k)

/-- `rolling(k).mean().iloc[-1]`: arithmetic mean of the trailing `k`
entries. -/
def meanLast (k : ℕ) (xs : List ℚ) : ℚ := (lastN k xs).sum / k

/-- `iloc[-1]` of a series. -/
def lastD (xs : List ℚ) : ℚ := xs.getLastD 0

/-- EMA recursion `ema_t = α·x_t + (1−α)·ema_(t-1)` started from `prev`. -/
def emaFrom (α prev : ℚ) : List ℚ → List ℚ
  | [] => [prev]
  | y :: ys => prev :: emaFrom α (α * y + (1 - α) * prev) ys

/-- `ewm(span, adjust=False).mean()` with `α = 2/(span+1)`: the recursive
EMA seeded with the first value. -/
def emaList (α : ℚ) : List ℚ → List ℚ
  | [] => []
  | x :: xs => emaFrom α x xs

/-- `delta.where(delta > 0, 0.0)`: the leading `diff` entry is `NaN`, the
comparison `NaN > 0` is false, so position 0 becomes `0.0`; every later
position `i` holds `max (delta i) 0`. -/
def gains (closes : List ℚ) : List ℚ :=
  match closes with
  | [] => []
  | _ :: _ => 0 :: (deltas closes).map (fun d => max d 0)

/-- `-(delta.where(delta < 0, 0.0))`: position 0 is `-0.0 = 0`, later
positions hold `max (-delta i) 0`. -/
def losses (closes : List ℚ) : List ℚ :=
  match closes with
  | [] => []
  | _ :: _ => 0 :: (deltas closes).map (fun d => max (-d) 0)

/-- RSI-14 block of `compute_technicals`: 14-period rolling means of gains
and losses; `loss.replace(0, nan)` makes `rs`, hence the RSI, `NaN` when the
mean loss is `0`, and `pd.notna` then stores `None`. -/
def rsi14 (closes : List ℚ) : Option ℚ :=
  let g := meanLast 14 (gains closes)
  let l := meanLast 14 (losses closes)
  if l = 0 then none
  else some (roundTo 2 (100 - 100 / (1 + g / l)))

/-- MACD(12,26,9) block: `macd_line = ema12 − ema26`, `signal_line` the
9-span EMA of the MACD line, `histogram` their difference; the last value of
each, rounded to 4 decimals. -/
def macdTriple (closes : List ℚ) : ℚ × ℚ × ℚ :=
  let ema12 := emaList (2 / 13) closes
  let ema26 := emaList (2 / 27) closes
  let macdLine := List.zipWith (fun a b => a - b) ema12 ema26
  let signalLine := emaList (2 / 10) macdLine
  let histogram := List.zipWith (fun a b => a - b) macdLine signalLine
  (roundTo 4 (lastD macdLine), roundTo 4 (lastD signalLine),
    roundTo 4 (lastD histogram))

/-- SMA block: `rolling(k).mean().iloc[-1]`, rounded to 2 decimals. -/
def sma (k : ℕ) (closes : List ℚ) : ℚ := roundTo 2 (meanLast k closes)

/-- Sample variance (`ddof = 1`) of the trailing 20 closes, the square of
`rolling(20).std().iloc[-1]`. -/
def varLast20 (closes : List ℚ) : ℚ :=
  ((lastN 20 closes).map (fun x => (x - meanLast 20 closes) ^ 2)).sum / 19

/-- `rolling(20).std().iloc[-1]`, taken in `ℝ`. -/
noncomputable def stdLast20 (closes : List ℚ) : ℝ :=
  Real.sqrt (varLast20 closes)

/-- Unrounded Bollinger upper band `sma + 2·std`. -/
noncomputable def bbUpperRaw (closes : List ℚ) : ℝ :=
  (meanLast 20 closes : ℝ) + 2 * stdLast20 closes

/-- Unrounded Bollinger lower band `sma − 2·std`. -/
noncomputable def bbLowerRaw (closes : List ℚ) : ℝ :=
  (meanLast 20 closes : ℝ) - 2 * stdLast20 closes

/-- Bollinger(20,2) block: rounded upper and lower bands, and `bb_pct`
computed only when `band_width = upper - lower` is strictly positive. -/
noncomputable def bollinger (closes : List ℚ) : ℚ × ℚ × Option ℚ :=
  let upper := bbUpperRaw closes
  let lower := bbLowerRaw closes
  (roundToR 2 upper, roundToR 2 lower,
    if 0 < upper - lower then
      some (roundToR 3 (((lastD closes : ℝ) - lower) / (upper - lower)))
    else none)

/-- Volume-ratio block: `latest volume / trailing-20 mean volume`, guarded
by `mean > 0` (the length gate lives in `compute_technicals`). -/
def volumeRatio (volumes : List ℚ) : Option ℚ :=
  if 0 < meanLast 20 volumes then
    some (roundTo 2 (lastD volumes / meanLast 20 volumes))
  else none

/-- Bullish vote count of the trend heuristic, over the stored (rounded)
snapshot fields and the unrounded last close `price`. -/
def bullishVotes (rsi hist s20 s50 : Option ℚ) (price : ℚ) : ℕ :=
  (match rsi with
   | some r => if 55 < r then 1 else 0
   | none => 0) +
  (match hist with
   | some h => if 0 < h then 1 else 0
   | none => 0) +
  (match s20 with
   | some s => if s < price then 1 else 0
   | none => 0) +
  (match s50 with
   | some s => if s < price then 1 else 0
   | none => 0)

/-- Bearish vote count: RSI votes bearish only below 45, the other three
indicators vote bearish whenever they do not vote bullish. -/
def bearishVotes (rsi hist s20 s50 : Option ℚ) (price : ℚ) : ℕ :=
  (match rsi with
   | some r => if 55 < r then 0 else if r < 45 then 1 else 0
   | none => 0) +
  (match hist with
   | some h => if 0 < h then 0 else 1
   | none => 0) +
  (match s20 with
   | some s => if s < price then 0 else 1
   | none => 0) +
  (match s50 with
   | some s => if s < price then 0 else 1
   | none => 0)

/-- Final classification: margin-of-two majority, `neutral` otherwise. -/
def classifyTrend (b s : ℕ) : String :=
  if s + 1 < b then "bullish"
  else if b + 1 < s then "bearish"
  else "neutral"

/-- The indicator engine `compute_technicals`: early return with only
`bars_used` when fewer than 14 bars, otherwise each indicator block gated by
its history threshold, then the trend heuristic over the stored fields. -/
noncomputable def compute_technicals (bars : List Bar) : Technicals :=
  if bars.length < 14 then { bars_used := bars.length }
  else
    let closes := bars.map Bar.close
    let volumes := bars.map Bar.volume
    let price := lastD closes
    let rsi := if 14 ≤ closes.length then rsi14 closes else none
    let macd3 := if 26 ≤ closes.length then some (macdTriple closes) else none
    let s20 := if 20 ≤ closes.length then some (sma 20 closes) else none
    let s50 := if 50 ≤ closes.length then some (sma 50 closes) else none
    let bb := if 20 ≤ closes.length then some (bollinger closes) else none
    let vr := if 20 ≤ volumes.length then volumeRatio volumes else none
    let hist := macd3.map (fun m => m.2.2)
    { rsi_14 := rsi
      macd := macd3.map (fun m => m.1)
      macd_signal := macd3.map (fun m => m.2.1)
      macd_hist := hist
      sma_20 := s20
      sma_50 := s50
      bb_upper := bb.map (fun b => b.1)
      bb_lower := bb.map (fun b => b.2.1)
      bb_pct := bb.bind (fun b => b.2.2)
      volume_ratio := vr
      trend := some (classifyTrend (bullishVotes rsi hist s20 s50 price)
        (bearishVotes rsi hist s20 s50 price))
      bars_used := bars.length }

/-- Decimal rendering of a rational in a formatted line.  This abstracts
Python's float `repr`; no claim under study depends on the digit string, only
on line structure and qualitative labels. -/
def fmtQ (q : ℚ) : String := toString q

/-- An `Optional[float]` interpolated into an f-string: `None` prints as
`"None"`. -/
def fmtOpt : Option ℚ → String
  | some q => fmtQ q
  | none => "None"

/-- The `:.1%` percent format of `bb_pct`. -/
def fmtPct (p : ℚ) : String := fmtQ (roundTo 1 (p * 100)) ++ "%"

/-- The line list built by `format_technicals` after the no-data short
circuit: a header, then one line per non-null indicator, in fixed order. -/
def techLines (tech : Technicals) (current_price : Option ℚ) : List String :=
  ["Based on " ++ toString tech.bars_used ++ " daily bars:"] ++
  (match tech.rsi_14 with
   | some r =>
     let interp :=
       if 70 < r then "overbought" else if r < 30 then "oversold"
       else "neutral"
     ["- RSI(14): " ++ fmtQ r ++ " [" ++ interp ++ "]"]
   | none => []) ++
  (match tech.macd with
   | some m =>
     let direction :=
       if (match tech.macd_hist with
           | some h => decide (0 < h)
           | none => false) then "bullish crossover" else "bearish crossover"
     ["- MACD(12,26,9): " ++ fmtQ m ++ " | Signal: " ++
       fmtOpt tech.macd_signal ++ " | Hist: " ++ fmtOpt tech.macd_hist ++
       " [" ++ direction ++ "]"]
   | none => []) ++
  (match tech.sma_20 with
   | some s =>
     let pos := if s < current_price.getD 0 then "above" else "below"
     ["- SMA-20: " ++ fmtQ s ++ " [price " ++ pos ++ " SMA-20]"]
   | none => []) ++
  (match tech.sma_50 with
   | some s =>
     let pos := if s < current_price.getD 0 then "above" else "below"
     ["- SMA-50: " ++ fmtQ s ++ " [price " ++ pos ++ " SMA-50]"]
   | none => []) ++
  (match tech.bb_upper with
   | some u =>
     let pctStr :=
       match tech.bb_pct with
       | some p => fmtPct p
       | none => "N/A"
     ["- Bollinger Bands: Lower=" ++ fmtOpt tech.bb_lower ++ " | Upper=" ++
       fmtQ u ++ " | Position=" ++ pctStr]
   | none => []) ++
  (match tech.volume_ratio with
   | some v =>
     let vi :=
       if 3 / 2 < v then "high" else if v < 1 / 2 then "low" else "average"
     ["- Volume ratio (vs 20d avg): " ++ fmtQ v ++ "x [" ++ vi ++
       " volume]"]
   | none => []) ++
  (match tech.trend with
   | some t => if t.isEmpty then [] else ["- Overall trend signal: " ++ t.toUpper]
   | none => [])

/-- The renderer `format_technicals`: a single sentinel line when
`bars_used == 0`, otherwise the indicator lines joined by newlines. -/
def format_technicals (tech : Technicals) (current_price : Option ℚ) :
    String :=
  if tech.bars_used = 0 then
    "No historical data available (IB Gateway not connected)."
  else String.intercalate "\n" (techLines tech current_price)

/-! ### Unfolding lemmas for `compute_technicals` -/

lemma compute_technicals_lt (bars : List Bar) (h : bars.length < 14) :
    compute_technicals bars = { bars_used := bars.length } := by
  simp [compute_technicals, h]

lemma bars_used_eq (bars : List Bar) :
    (compute_technicals bars).bars_used = bars.length := by
  by_cases h : bars.length < 14 <;> simp [compute_technicals, h]

lemma rsi_14_eq (bars : List Bar) (h : 14 ≤ bars.length) :
    (compute_technicals bars).rsi_14 = rsi14 (bars.map Bar.close) := by
  simp [compute_technicals, Nat.not_lt.mpr h, h]

lemma macd_eq (bars : List Bar) (h : 14 ≤ bars.length) :
    (compute_technicals bars).macd =
      if 26 ≤ bars.length then some (macdTriple (bars.map Bar.close)).1
      else none := by
  by_cases h26 : 26 ≤ bars.length <;>
    simp [compute_technicals, Nat.not_lt.mpr h, h26]

lemma macd_signal_eq (bars : List Bar) (h : 14 ≤ bars.length) :
    (compute_technicals bars).macd_signal =
      if 26 ≤ bars.length then some (macdTriple (bars.map Bar.close)).2.1
      else none := by
  by_cases h26 : 26 ≤ bars.length <;>
    simp [compute_technicals, Nat.not_lt.mpr h, h26]

lemma macd_hist_eq (bars : List Bar) (h : 14 ≤ bars.length) :
    (compute_technicals bars).macd_hist =
      if 26 ≤ bars.length then some (macdTriple (bars.map Bar.close)).2.2
      else none := by
  by_cases h26 : 26 ≤ bars.length <;>
    simp [compute_technicals, Nat.not_lt.mpr h, h26]

lemma sma_20_eq (bars : List Bar) (h : 14 ≤ bars.length) :
    (compute_technicals bars).sma_20 =
      if 20 ≤ bars.length then some (sma 20 (bars.map Bar.close))
      else none := by
  by_cases h20 : 20 ≤ bars.length <;>
    simp [compute_technicals, Nat.not_lt.mpr h, h20]

lemma sma_50_eq (bars : List Bar) (h : 14 ≤ bars.length) :
    (compute_technicals bars).sma_50 =
      if 50 ≤ bars.length then some (sma 50 (bars.map Bar.close))
      else none := by
  by_cases h50 : 50 ≤ bars.length <;>
    simp [compute_technicals, Nat.not_lt.mpr h, h50]

lemma bb_upper_eq (bars : List Bar) (h : 14 ≤ bars.length) :
    (compute_technicals bars).bb_upper =
      if 20 ≤ bars.length then some (bollinger (bars.map Bar.close)).1
      else none := by
  by_cases h20 : 20 ≤ bars.length <;>
    simp [compute_technicals, Nat.not_lt.mpr h, h20]

lemma bb_lower_eq (bars : List Bar) (h : 14 ≤ bars.length) :
    (compute_technicals bars).bb_lower =
      if 20 ≤ bars.length then some (bollinger (bars.map Bar.close)).2.1
      else none := by
  by_cases h20 : 20 ≤ bars.length <;>
    simp [compute_technicals, Nat.not_lt.mpr h, h20]

lemma bb_pct_eq (bars : List Bar) (h : 14 ≤ bars.length) :
    (compute_technicals bars).bb_pct =
      if 20 ≤ bars.length then (bollinger (bars.map Bar.close)).2.2
      else none := by
  by_cases h20 : 20 ≤ bars.length <;>
    simp [compute_technicals, Nat.not_lt.mpr h, h20]

lemma volume_ratio_eq (bars : List Bar) (h : 14 ≤ bars.length) :
    (compute_technicals bars).volume_ratio =
      if 20 ≤ bars.length then volumeRatio (bars.map Bar.volume)
      else none := by
  by_cases h20 : 20 ≤ bars.length <;>
    simp [compute_technicals, Nat.not_lt.mpr h, h20]

lemma trend_eq (bars : List Bar) (h : 14 ≤ bars.length) :
    (compute_technicals bars).trend =
      some (classifyTrend
        (bullishVotes (compute_technicals bars).rsi_14
          (compute_technicals bars).macd_hist
          (compute_technicals bars).sma_20 (compute_technicals bars).sma_50
          (lastD (bars.map Bar.close)))
        (bearishVotes (compute_technicals bars).rsi_14
          (compute_technicals bars).macd_hist
          (compute_technicals bars).sma_20 (compute_technicals bars).sma_50
          (lastD (bars.map Bar.close)))) := by
  by_cases h26 : 26 ≤ bars.length <;> by_cases h20 : 20 ≤ bars.length <;>
    by_cases h50 : 50 ≤ bars.length <;>
    simp [compute_technicals, Nat.not_lt.mpr h, h26, h20, h50]

/-! ### Constant-series evaluation lemmas -/

lemma deltas_replicate (c : ℚ) :
    ∀ n, deltas (List.replicate n c) = List.replicate (n - 1) 0 := by
  intro n
  induction n with
  | zero => simp [deltas]
  | succ m ih =>
    cases m with
    | zero => simp [deltas]
    | succ k =>
      have : List.replicate (k + 2) c = c :: c :: List.replicate k c := by
        simp [List.replicate_succ]
      rw [this, deltas, show c :: List.replicate k c =
        List.replicate (k + 1) c from (List.replicate_succ c k).symm, ih]
      simp [List.replicate_succ]

lemma gains_replicate (n : ℕ) (c : ℚ) :
    gains (List.replicate n c) = List.replicate n 0 := by
  cases n with
  | zero => simp [gains]
  | succ m =>
    rw [List.replicate_succ]
    simp only [gains]
    rw [← List.replicate_succ, deltas_replicate]
    simp [List.replicate_succ, List.map_replicate]

lemma losses_replicate (n : ℕ) (c : ℚ) :
    losses (List.replicate n c) = List.replicate n 0 := by
  cases n with
  | zero => simp [losses]
  | succ m =>
    rw [List.replicate_succ]
    simp only [losses]
    rw [← List.replicate_succ, deltas_replicate]
    simp [List.replicate_succ, List.map_replicate]

lemma lastN_replicate (k n : ℕ) (c : ℚ) :
    lastN k (List.replicate n c) = List.replicate (min k n) c := by
  rw [lastN, List.length_replicate, List.drop_replicate]
  congr 1
  omega

lemma meanLast_replicate_zero (k n : ℕ) :
    meanLast k (List.replicate n (0 : ℚ)) = 0 := by
  simp [meanLast, lastN_replicate]

lemma meanLast_replicate (k n : ℕ) (c : ℚ) (hk : k ≠ 0) (h : k ≤ n) :
    meanLast k (List.replicate n c) = c := by
  rw [meanLast, lastN_replicate, min_eq_left h]
  rw [List.sum_replicate, nsmul_eq_mul]
  rw [mul_comm, mul_div_assoc, div_self (by exact_mod_cast hk), mul_one]

lemma lastD_replicate (n : ℕ) (c : ℚ) (h : n ≠ 0) :
    lastD (List.replicate n c) = c := by
  induction n with
  | zero => omega
  | succ m ih =>
    cases m with
    | zero => simp [lastD, List.replicate_succ]
    | succ k =>
      rw [List.replicate_succ, lastD, List.getLastD_cons]
      exact ih (by omega)

lemma emaFrom_const (α c : ℚ) :
    ∀ n, emaFrom α c (List.replicate n c) = List.replicate (n + 1) c := by
  intro n
  induction n with
  | zero => simp [emaFrom]
  | succ m ih =>
    rw [List.replicate_succ, emaFrom,
      show α * c + (1 - α) * c = c by ring, ih]
    simp [List.replicate_succ]

lemma emaList_replicate (α : ℚ) (n : ℕ) (c : ℚ) :
    emaList α (List.replicate n c) = List.replicate n c := by
  cases n with
  | zero => simp [emaList]
  | succ m =>
    rw [List.replicate_succ, emaList, emaFrom_const]
    simp [List.replicate_succ]

lemma varLast20_replicate (n : ℕ) (h : 20 ≤ n) (c : ℚ) :
    varLast20 (List.replicate n c) = 0 := by
  rw [varLast20, lastN_replicate, meanLast_replicate 20 n c (by omega) h]
  simp

/-! ### Concrete inputs used by witnesses -/

/-- A flat bar: `close = 100.0`, `volume = 1000`. -/
def flatBar : Bar := ⟨"", 100, 100, 100, 100, 1000⟩

/-- `n` flat bars. -/
def flatBars (n : ℕ) : List Bar := List.replicate n flatBar

/-- 50 bars with strictly decreasing closes `100, 99, …, 51` and volume
`5`. -/
def downBars50 : List Bar :=
  [⟨"", 0, 0, 0, 100, 5⟩, ⟨"", 0, 0, 0, 99, 5⟩, ⟨"", 0, 0, 0, 98, 5⟩, ⟨"",
   0, 0, 0, 97, 5⟩, ⟨"", 0, 0, 0, 96, 5⟩, ⟨"", 0, 0, 0, 95, 5⟩, ⟨"", 0, 0,
   0, 94, 5⟩, ⟨"", 0, 0, 0, 93, 5⟩, ⟨"", 0, 0, 0, 92, 5⟩, ⟨"", 0, 0, 0,
   91, 5⟩, ⟨"", 0, 0, 0, 90, 5⟩, ⟨"", 0, 0, 0, 89, 5⟩, ⟨"", 0, 0, 0, 88,
   5⟩, ⟨"", 0, 0, 0, 87, 5⟩, ⟨"", 0, 0, 0, 86, 5⟩, ⟨"", 0, 0, 0, 85, 5⟩,
   ⟨"", 0, 0, 0, 84, 5⟩, ⟨"", 0, 0, 0, 83, 5⟩, ⟨"", 0, 0, 0, 82, 5⟩, ⟨"",
   0, 0, 0, 81, 5⟩, ⟨"", 0, 0, 0, 80, 5⟩, ⟨"", 0, 0, 0, 79, 5⟩, ⟨"", 0, 0,
   0, 78, 5⟩, ⟨"", 0, 0, 0, 77, 5⟩, ⟨"", 0, 0, 0, 76, 5⟩, ⟨"", 0, 0, 0,
   75, 5⟩, ⟨"", 0, 0, 0, 74, 5⟩, ⟨"", 0, 0, 0, 73, 5⟩, ⟨"", 0, 0, 0, 72,
   5⟩, ⟨"", 0, 0, 0, 71, 5⟩, ⟨"", 0, 0, 0, 70, 5⟩, ⟨"", 0, 0, 0, 69, 5⟩,
   ⟨"", 0, 0, 0, 68, 5⟩, ⟨"", 0, 0, 0, 67, 5⟩, ⟨"", 0, 0, 0, 66, 5⟩, ⟨"",
   0, 0, 0, 65, 5⟩, ⟨"", 0, 0, 0, 64, 5⟩, ⟨"", 0, 0, 0, 63, 5⟩, ⟨"", 0, 0,
   0, 62, 5⟩, ⟨"", 0, 0, 0, 61, 5⟩, ⟨"", 0, 0, 0, 60, 5⟩, ⟨"", 0, 0, 0,
   59, 5⟩, ⟨"", 0, 0, 0, 58, 5⟩, ⟨"", 0, 0, 0, 57, 5⟩, ⟨"", 0, 0, 0, 56,
   5⟩, ⟨"", 0, 0, 0, 55, 5⟩, ⟨"", 0, 0, 0, 54, 5⟩, ⟨"", 0, 0, 0, 53, 5⟩,
   ⟨"", 0, 0, 0, 52, 5⟩, ⟨"", 0, 0, 0, 51, 5⟩]

/-- 14 bars with strictly decreasing closes `100, 99, …, 87` and volume
`5`. -/
def downBars14 : List Bar :=
  [⟨"", 0, 0, 0, 100, 5⟩, ⟨"", 0, 0, 0, 99, 5⟩, ⟨"", 0, 0, 0, 98, 5⟩, ⟨"",
   0, 0, 0, 97, 5⟩, ⟨"", 0, 0, 0, 96, 5⟩, ⟨"", 0, 0, 0, 95, 5⟩, ⟨"", 0, 0,
   0, 94, 5⟩, ⟨"", 0, 0, 0, 93, 5⟩, ⟨"", 0, 0, 0, 92, 5⟩, ⟨"", 0, 0, 0,
   91, 5⟩, ⟨"", 0, 0, 0, 90, 5⟩, ⟨"", 0, 0, 0, 89, 5⟩, ⟨"", 0, 0, 0, 88,
   5⟩, ⟨"", 0, 0, 0, 87, 5⟩]

/-! ### C1 -/

/-- C1: for every Bar Series of length `n` the engine returns a snapshot
with `bars_used = n`, and when `n < 14` every other field is null. -/
theorem compute_technicals_insufficient_data (bars : List Bar) :
    (compute_technicals bars).bars_used = bars.length ∧
    (bars.length < 14 →
      (compute_technicals bars).rsi_14 = none ∧
      (compute_technicals bars).macd = none ∧
      (compute_technicals bars).macd_signal = none ∧
      (compute_technicals bars).macd_hist = none ∧
      (compute_technicals bars).sma_20 = none ∧
      (compute_technicals bars).sma_50 = none ∧
      (compute_technicals bars).bb_upper = none ∧
      (compute_technicals bars).bb_lower = none ∧
      (compute_technicals bars).bb_pct = none ∧
      (compute_technicals bars).volume_ratio = none ∧
      (compute_technicals bars).trend = none) := by
  refine ⟨bars_used_eq bars, fun h => ?_⟩
  rw [compute_technicals_lt bars h]
  exact ⟨rfl, rfl, rfl, rfl, rfl, rfl, rfl, rfl, rfl, rfl, rfl⟩

/-- Witness for C1 at the concrete 3-bar series. -/
theorem compute_technicals_insufficient_data_spot :
    (flatBars 3).length < 14 ∧
    (compute_technicals (flatBars 3)).bars_used = 3 ∧
    (compute_technicals (flatBars 3)).rsi_14 = none ∧
    (compute_technicals (flatBars 3)).trend = none := by
  have h3 : (flatBars 3).length = 3 := by simp [flatBars]
  have h := compute_technicals_insufficient_data (flatBars 3)
  have hlt : (flatBars 3).length < 14 := by omega
  exact ⟨hlt, h3 ▸ h.1, (h.2 hlt).1, (h.2 hlt).2.2.2.2.2.2.2.2.2.2⟩

/-! ### C6 -/

/-- C6: the engine is deterministic — equal Bar Series produce equal
Technicals Snapshots (it is a pure function of its input). -/
theorem compute_technicals_deterministic (b₁ b₂ : List Bar)
    (h : b₁ = b₂) : compute_technicals b₁ = compute_technicals b₂ := by
  rw [h]

/-- Witness for C6 at a concrete input. -/
theorem compute_technicals_deterministic_spot :
    compute_technicals (flatBars 30) = compute_technicals (flatBars 30) :=
  compute_technicals_deterministic (flatBars 30) (flatBars 30) rfl

/-! ### C7 -/

/-- C7: rendering any snapshot with `bars_used = 0`, with any optional
current price, yields exactly the single "no data" sentinel line and no
header or indicator lines. -/
theorem format_technicals_no_data (tech : Technicals)
    (current_price : Option ℚ) (h : tech.bars_used = 0) :
    format_technicals tech current_price =
      "No historical data available (IB Gateway not connected)." ∧
    '\n' ∉ (format_technicals tech current_price).toList := by
  rw [format_technicals, if_pos h]
  exact ⟨rfl, by decide⟩

/-- Witness for C7 at a concrete snapshot. -/
theorem format_technicals_no_data_spot :
    ({ } : Technicals).bars_used = 0 ∧
    format_technicals { } none =
      "No historical data available (IB Gateway not connected)." :=
  ⟨rfl, (format_technicals_no_data { } none rfl).1⟩

/-! ### C9 -/

/-- C9: in every snapshot the engine returns, `macd`, `macd_signal` and
`macd_hist` are all null or all non-null, and `bb_upper`, `bb_lower` are
both null or both non-null — the grouping invariant the renderer relies on
when it prints signal, histogram and lower band after testing only `macd`
and `bb_upper`. -/
theorem compute_technicals_grouping (bars : List Bar) :
    ((compute_technicals bars).macd = none ↔
      (compute_technicals bars).macd_signal = none) ∧
    ((compute_technicals bars).macd = none ↔
      (compute_technicals bars).macd_hist = none) ∧
    ((compute_technicals bars).bb_upper = none ↔
      (compute_technicals bars).bb_lower = none) := by
  by_cases h : bars.length < 14
  · rw [compute_technicals_lt bars h]
    exact ⟨Iff.rfl, Iff.rfl, Iff.rfl⟩
  · have h14 : 14 ≤ bars.length := Nat.not_lt.mp h
    rw [macd_eq bars h14, macd_signal_eq bars h14, macd_hist_eq bars h14,
      bb_upper_eq bars h14, bb_lower_eq bars h14]
    by_cases h26 : 26 ≤ bars.length <;> by_cases h20 : 20 ≤ bars.length <;>
      simp [h26, h20]

/-! ### C5 -/

/-- C5: both division-by-zero conditions degrade to null — a zero 14-period
mean loss makes `rsi_14` null, and a non-positive unrounded band width
`upper − lower` makes `bb_pct` null.  In the exact-arithmetic model every
non-null field is a rational number, so no `NaN`/`Inf` can appear. -/
theorem rsi_bb_div_guards (bars : List Bar) :
    (meanLast 14 (losses (bars.map Bar.close)) = 0 →
      (compute_technicals bars).rsi_14 = none) ∧
    (¬ 0 < bbUpperRaw (bars.map Bar.close) -
        bbLowerRaw (bars.map Bar.close) →
      (compute_technicals bars).bb_pct = none) := by
  by_cases h : bars.length < 14
  · rw [compute_technicals_lt bars h]
    exact ⟨fun _ => rfl, fun _ => rfl⟩
  · have h14 : 14 ≤ bars.length := Nat.not_lt.mp h
    constructor
    · intro hl
      rw [rsi_14_eq _ h14]
      simp [rsi14, hl]
    · intro hw
      rw [bb_pct_eq _ h14]
      by_cases h20 : 20 ≤ bars.length <;> simp [h20, bollinger, hw]

/-- Witness for C5 at 20 flat bars (zero deltas, zero band width). -/
theorem rsi_bb_div_guards_spot :
    meanLast 14 (losses ((flatBars 20).map Bar.close)) = 0 ∧
    ¬ 0 < bbUpperRaw ((flatBars 20).map Bar.close) -
        bbLowerRaw ((flatBars 20).map Bar.close) ∧
    (compute_technicals (flatBars 20)).rsi_14 = none ∧
    (compute_technicals (flatBars 20)).bb_pct = none := by
  have hc : (flatBars 20).map Bar.close = List.replicate 20 (100 : ℚ) := by
    simp [flatBars, flatBar, List.map_replicate]
  have h1 : meanLast 14 (losses ((flatBars 20).map Bar.close)) = 0 := by
    rw [hc, losses_replicate, meanLast_replicate_zero]
  have hv : varLast20 ((flatBars 20).map Bar.close) = 0 := by
    rw [hc, varLast20_replicate 20 le_rfl]
  have h2 : ¬ 0 < bbUpperRaw ((flatBars 20).map Bar.close) -
      bbLowerRaw ((flatBars 20).map Bar.close) := by
    rw [bbUpperRaw, bbLowerRaw, stdLast20, hv]
    simp
  exact ⟨h1, h2, (rsi_bb_div_guards (flatBars 20)).1 h1,
    (rsi_bb_div_guards (flatBars 20)).2 h2⟩

/-! ### C2 -/

/-- C2: with non-degenerate input (a non-zero trailing mean loss once 14
bars exist, a positive trailing mean volume once 20 bars exist), each
indicator field is non-null exactly when its history threshold is met:
RSI at 14 bars, the MACD triple at 26, SMA-20/Bollinger bands/volume ratio
at 20, SMA-50 at 50. -/
theorem indicator_thresholds (bars : List Bar)
    (hloss : 14 ≤ bars.length →
      meanLast 14 (losses (bars.map Bar.close)) ≠ 0)
    (hvol : 20 ≤ bars.length →
      0 < meanLast 20 (bars.map Bar.volume)) :
    ((compute_technicals bars).rsi_14 ≠ none ↔ 14 ≤ bars.length) ∧
    ((compute_technicals bars).macd ≠ none ↔ 26 ≤ bars.length) ∧
    ((compute_technicals bars).macd_signal ≠ none ↔ 26 ≤ bars.length) ∧
    ((compute_technicals bars).macd_hist ≠ none ↔ 26 ≤ bars.length) ∧
    ((compute_technicals bars).sma_20 ≠ none ↔ 20 ≤ bars.length) ∧
    ((compute_technicals bars).bb_upper ≠ none ↔ 20 ≤ bars.length) ∧
    ((compute_technicals bars).bb_lower ≠ none ↔ 20 ≤ bars.length) ∧
    ((compute_technicals bars).volume_ratio ≠ none ↔ 20 ≤ bars.length) ∧
    ((compute_technicals bars).sma_50 ≠ none ↔ 50 ≤ bars.length) := by
  by_cases h : bars.length < 14
  · rw [compute_technicals_lt bars h]
    refine ⟨by simp; omega, by simp; omega, by simp; omega, by simp; omega,
      by simp; omega, by simp; omega, by simp; omega, by simp; omega,
      by simp; omega⟩
  · have h14 : 14 ≤ bars.length := Nat.not_lt.mp h
    refine ⟨?_, ?_, ?_, ?_, ?_, ?_, ?_, ?_, ?_⟩
    · rw [rsi_14_eq _ h14]
      simp [rsi14, hloss h14, h14]
    · rw [macd_eq _ h14]
      by_cases h26 : 26 ≤ bars.length <;> simp [h26]
    · rw [macd_signal_eq _ h14]
      by_cases h26 : 26 ≤ bars.length <;> simp [h26]
    · rw [macd_hist_eq _ h14]
      by_cases h26 : 26 ≤ bars.length <;> simp [h26]
    · rw [sma_20_eq _ h14]
      by_cases h20 : 20 ≤ bars.length <;> simp [h20]
    · rw [bb_upper_eq _ h14]
      by_cases h20 : 20 ≤ bars.length <;> simp [h20]
    · rw [bb_lower_eq _ h14]
      by_cases h20 : 20 ≤ bars.length <;> simp [h20]
    · rw [volume_ratio_eq _ h14]
      by_cases h20 : 20 ≤ bars.length
      · simp [h20, volumeRatio, hvol h20]
      · simp [h20]
    · rw [sma_50_eq _ h14]
      by_cases h50 : 50 ≤ bars.length <;> simp [h50]

/-- Witness for C2 at 50 strictly decreasing bars. -/
theorem indicator_thresholds_spot :
    meanLast 14 (losses (downBars50.map Bar.close)) ≠ 0 ∧
    0 < meanLast 20 (downBars50.map Bar.volume) ∧
    (compute_technicals downBars50).rsi_14 ≠ none ∧
    (compute_technicals downBars50).sma_50 ≠ none := by
  have h1 : meanLast 14 (losses (downBars50.map Bar.close)) ≠ 0 := by
    norm_num [downBars50, meanLast, lastN, losses, deltas, max_def]
  have h2 : 0 < meanLast 20 (downBars50.map Bar.volume) := by
    norm_num [downBars50, meanLast, lastN]
  have hlen : 50 ≤ downBars50.length := by norm_num [downBars50]
  have h := indicator_thresholds downBars50 (fun _ => h1) (fun _ => h2)
  exact ⟨h1, h2, h.1.mpr (by omega),
    h.2.2.2.2.2.2.2.2.mpr hlen⟩

/-! ### C3 -/

/-- Bullish vote count recomputed from the snapshot's own output fields. -/
noncomputable def snapshotBulls (bars : List Bar) : ℕ :=
  bullishVotes (compute_technicals bars).rsi_14
    (compute_technicals bars).macd_hist (compute_technicals bars).sma_20
    (compute_technicals bars).sma_50 (lastD (bars.map Bar.close))

/-- Bearish vote count recomputed from the snapshot's own output fields. -/
noncomputable def snapshotBears (bars : List Bar) : ℕ :=
  bearishVotes (compute_technicals bars).rsi_14
    (compute_technicals bars).macd_hist (compute_technicals bars).sma_20
    (compute_technicals bars).sma_50 (lastD (bars.map Bar.close))

lemma votes_le_four (rsi hist s20 s50 : Option ℚ) (p : ℚ) :
    bullishVotes rsi hist s20 s50 p + bearishVotes rsi hist s20 s50 p ≤ 4 := by
  cases rsi <;> cases hist <;> cases s20 <;> cases s50 <;>
    simp only [bullishVotes, bearishVotes] <;>
    first
    | omega
    | (split_ifs <;> omega)

/-- C3: for `n ≥ 14` the classifier casts at most four votes (each of RSI,
MACD histogram, price-vs-SMA20, price-vs-SMA50 contributing at most one,
none when its field is null), and the reported trend is `bullish` iff
`B > S + 1`, `bearish` iff `S > B + 1`, and `neutral` otherwise — including
when zero votes are cast. -/
theorem trend_classification (bars : List Bar) (h : 14 ≤ bars.length) :
    snapshotBulls bars + snapshotBears bars ≤ 4 ∧
    ((compute_technicals bars).trend = some "bullish" ↔
      snapshotBears bars + 1 < snapshotBulls bars) ∧
    ((compute_technicals bars).trend = some "bearish" ↔
      snapshotBulls bars + 1 < snapshotBears bars) ∧
    ((compute_technicals bars).trend = some "neutral" ↔
      ¬ snapshotBears bars + 1 < snapshotBulls bars ∧
      ¬ snapshotBulls bars + 1 < snapshotBears bars) := by
  have ht := trend_eq bars h
  rw [show (bullishVotes (compute_technicals bars).rsi_14
      (compute_technicals bars).macd_hist (compute_technicals bars).sma_20
      (compute_technicals bars).sma_50 (lastD (bars.map Bar.close))) =
      snapshotBulls bars from rfl,
    show (bearishVotes (compute_technicals bars).rsi_14
      (compute_technicals bars).macd_hist (compute_technicals bars).sma_20
      (compute_technicals bars).sma_50 (lastD (bars.map Bar.close))) =
      snapshotBears bars from rfl] at ht
  refine ⟨votes_le_four _ _ _ _ _, ?_, ?_, ?_⟩ <;>
  · rw [ht, classifyTrend]
    split_ifs with h₁ h₂ <;> simp_all <;> omega

/-- Witness for C3 at 30 flat bars. -/
theorem trend_classification_spot :
    14 ≤ (flatBars 30).length ∧
    snapshotBulls (flatBars 30) + snapshotBears (flatBars 30) ≤ 4 := by
  have hlen : 14 ≤ (flatBars 30).length := by simp [flatBars]
  exact ⟨hlen, (trend_classification (flatBars 30) hlen).1⟩

/-! ### C10 -/

/-- C10: when the optional current price is absent or exactly `0`
(`current_price or 0` substitutes `0`), any rendered SMA-20 / SMA-50 line
with a strictly positive SMA value labels the price position `below`. -/
theorem renderer_sma_below (tech : Technicals) (cp : Option ℚ)
    (hcp : cp = none ∨ cp = some 0) :
    (tech.bars_used ≠ 0 →
      format_technicals tech cp =
        String.intercalate "\n" (techLines tech cp)) ∧
    (∀ v, tech.sma_20 = some v → 0 < v →
      ("- SMA-20: " ++ fmtQ v ++ " [price below SMA-20]") ∈
        techLines tech cp) ∧
    (∀ w, tech.sma_50 = some w → 0 < w →
      ("- SMA-50: " ++ fmtQ w ++ " [price below SMA-50]") ∈
        techLines tech cp) := by
  have hcp0 : cp.getD 0 = 0 := by
    rcases hcp with h | h <;> simp [h]
  refine ⟨fun h0 => by rw [format_technicals, if_neg h0], ?_, ?_⟩
  · intro v hv hvpos
    have hnot : ¬ v < cp.getD 0 := by
      rw [hcp0]
      exact not_lt.mpr hvpos.le
    simp [techLines, hv, hnot, String.append_assoc]
  · intro w hw hwpos
    have hnot : ¬ w < cp.getD 0 := by
      rw [hcp0]
      exact not_lt.mpr hwpos.le
    simp [techLines, hw, hnot, String.append_assoc]

/-- Witness for C10 at a concrete snapshot with `sma_20 = 100`,
`sma_50 = 50` and a missing current price. -/
theorem renderer_sma_below_spot :
    ("- SMA-20: " ++ fmtQ 100 ++ " [price below SMA-20]") ∈
      techLines { sma_20 := some 100, sma_50 := some 50, bars_used := 25 }
        none ∧
    ("- SMA-50: " ++ fmtQ 50 ++ " [price below SMA-50]") ∈
      techLines { sma_20 := some 100, sma_50 := some 50, bars_used := 25 }
        none := by
  have h := renderer_sma_below
    { sma_20 := some 100, sma_50 := some 50, bars_used := 25 } none
    (Or.inl rfl)
  exact ⟨h.2.1 100 rfl (by norm_num), h.2.2 50 rfl (by norm_num)⟩

/-! ### C8 -/

lemma gains_nonneg (closes : List ℚ) : ∀ x ∈ gains closes, 0 ≤ x := by
  cases closes with
  | nil => simp [gains]
  | cons a as =>
    intro x hx
    simp only [gains, List.mem_cons, List.mem_map] at hx
    rcases hx with h | ⟨d, _, rfl⟩
    · exact h ▸ le_rfl
    · exact le_max_right d 0

lemma losses_nonneg (closes : List ℚ) : ∀ x ∈ losses closes, 0 ≤ x := by
  cases closes with
  | nil => simp [losses]
  | cons a as =>
    intro x hx
    simp only [losses, List.mem_cons, List.mem_map] at hx
    rcases hx with h | ⟨d, _, rfl⟩
    · exact h ▸ le_rfl
    · exact le_max_right (-d) 0

lemma meanLast_nonneg (k : ℕ) (xs : List ℚ) (hxs : ∀ x ∈ xs, 0 ≤ x) :
    0 ≤ meanLast k xs := by
  apply div_nonneg _ (by positivity)
  exact List.sum_nonneg fun x hx => hxs x (List.mem_of_mem_drop hx)

lemma roundHalfEvenZ_mem (q : ℚ) :
    roundHalfEvenZ q = ⌊q⌋ ∨ roundHalfEvenZ q = ⌊q⌋ + 1 := by
  simp only [roundHalfEvenZ]
  split_ifs <;> simp

lemma roundTo_two_bounds (x : ℚ) (h0 : 0 ≤ x) (h1 : x < 100) :
    0 ≤ roundTo 2 x ∧ roundTo 2 x ≤ 100 := by
  have hfl : (0 : ℤ) ≤ ⌊x * 10 ^ 2⌋ := Int.floor_nonneg.mpr (by positivity)
  have hfu : ⌊x * 10 ^ 2⌋ < 10000 := by
    rw [Int.floor_lt]
    push_cast
    nlinarith
  have hr0 : (0 : ℤ) ≤ roundHalfEvenZ (x * 10 ^ 2) := by
    rcases roundHalfEvenZ_mem (x * 10 ^ 2) with h | h <;> omega
  have hr1 : roundHalfEvenZ (x * 10 ^ 2) ≤ 10000 := by
    rcases roundHalfEvenZ_mem (x * 10 ^ 2) with h | h <;> omega
  constructor
  · rw [roundTo]
    apply div_nonneg _ (by positivity)
    exact_mod_cast hr0
  · rw [roundTo, div_le_iff₀ (by positivity : (0 : ℚ) < 10 ^ 2)]
    calc ((roundHalfEvenZ (x * 10 ^ 2) : ℤ) : ℚ) ≤ 10000 := by
          exact_mod_cast hr1
      _ = 100 * 10 ^ 2 := by norm_num

/-- C8: whenever the engine returns a non-null `rsi_14`, it lies in the
closed interval `[0, 100]`. -/
theorem rsi_range (bars : List Bar) (v : ℚ)
    (h : (compute_technicals bars).rsi_14 = some v) : 0 ≤ v ∧ v ≤ 100 := by
  by_cases hlt : bars.length < 14
  · rw [compute_technicals_lt bars hlt] at h
    cases h
  · have h14 := Nat.not_lt.mp hlt
    rw [rsi_14_eq _ h14, rsi14] at h
    by_cases hl0 : meanLast 14 (losses (bars.map Bar.close)) = 0
    · simp [hl0] at h
    · rw [if_neg hl0] at h
      have hveq : v =
          roundTo 2 (100 - 100 /
            (1 + meanLast 14 (gains (bars.map Bar.close)) /
              meanLast 14 (losses (bars.map Bar.close)))) := by
        exact (Option.some_injective _ h).symm
      have hg : 0 ≤ meanLast 14 (gains (bars.map Bar.close)) :=
        meanLast_nonneg _ _ (gains_nonneg _)
      have hl : 0 < meanLast 14 (losses (bars.map Bar.close)) :=
        lt_of_le_of_ne (meanLast_nonneg _ _ (losses_nonneg _)) (Ne.symm hl0)
      have hrs : 0 ≤ meanLast 14 (gains (bars.map Bar.close)) /
          meanLast 14 (losses (bars.map Bar.close)) := div_nonneg hg hl.le
      set rs := meanLast 14 (gains (bars.map Bar.close)) /
        meanLast 14 (losses (bars.map Bar.close)) with hrsdef
      have h1 : (0 : ℚ) < 1 + rs := by linarith
      have hlow : 0 ≤ 100 - 100 / (1 + rs) := by
        have : 100 / (1 + rs) ≤ 100 :=
          div_le_self (by norm_num) (by linarith)
        linarith
      have hhigh : 100 - 100 / (1 + rs) < 100 := by
        have : 0 < 100 / (1 + rs) := by positivity
        linarith
      rw [hveq]
      exact roundTo_two_bounds _ hlow hhigh

/-- Witness for C8 at 14 strictly decreasing bars, where the RSI evaluates
to `0`. -/
theorem rsi_range_spot :
    (compute_technicals downBars14).rsi_14 = some 0 ∧
    (0 : ℚ) ≤ 0 ∧ (0 : ℚ) ≤ 100 := by
  have h14 : 14 ≤ downBars14.length := by norm_num [downBars14]
  have hsome : (compute_technicals downBars14).rsi_14 = some 0 := by
    rw [rsi_14_eq _ h14]
    norm_num [rsi14, downBars14, meanLast, lastN, losses, gains, deltas,
      max_def, roundTo, roundHalfEvenZ]
  exact ⟨hsome, rsi_range downBars14 0 hsome⟩

/-! ### C4 -/

lemma zipWith_sub_replicate (n : ℕ) (a b : ℚ) :
    List.zipWith (fun x y => x - y) (List.replicate n a)
      (List.replicate n b) = List.replicate n (a - b) := by
  induction n with
  | zero => simp
  | succ m ih => simp [List.replicate_succ, ih]

lemma roundHalfEvenZ_intCast (m : ℤ) : roundHalfEvenZ (m : ℚ) = m := by
  simp [roundHalfEvenZ, Int.floor_intCast]

lemma roundHalfEvenZR_intCast (m : ℤ) : roundHalfEvenZR (m : ℝ) = m := by
  simp [roundHalfEvenZR, Int.floor_intCast]

lemma roundTo_two_hundred : roundTo 2 (100 : ℚ) = 100 := by
  rw [roundTo, show (100 : ℚ) * 10 ^ 2 = ((10000 : ℤ) : ℚ) by norm_num,
    roundHalfEvenZ_intCast]
  norm_num

lemma roundTo_one : roundTo 2 (1 : ℚ) = 1 := by
  rw [roundTo, show (1 : ℚ) * 10 ^ 2 = ((100 : ℤ) : ℚ) by norm_num,
    roundHalfEvenZ_intCast]
  norm_num

lemma roundTo_four_zero : roundTo 4 (0 : ℚ) = 0 := by
  rw [roundTo, show (0 : ℚ) * 10 ^ 4 = ((0 : ℤ) : ℚ) by norm_num,
    roundHalfEvenZ_intCast]
  norm_num

lemma roundToR_two_hundred : roundToR 2 (100 : ℝ) = 100 := by
  rw [roundToR, show (100 : ℝ) * 10 ^ 2 = ((10000 : ℤ) : ℝ) by norm_num,
    roundHalfEvenZR_intCast]
  norm_num

lemma macdTriple_flat30 :
    macdTriple (List.replicate 30 (100 : ℚ)) = (0, 0, 0) := by
  have hz : (100 : ℚ) - 100 = 0 := by norm_num
  simp only [macdTriple, emaList_replicate, zipWith_sub_replicate, hz,
    sub_zero]
  rw [lastD_replicate 30 0 (by norm_num), roundTo_four_zero]

lemma bollinger_flat30 :
    bollinger (List.replicate 30 (100 : ℚ)) = (100, 100, none) := by
  have hvar : varLast20 (List.replicate 30 (100 : ℚ)) = 0 :=
    varLast20_replicate 30 (by norm_num) 100
  have hmean : meanLast 20 (List.replicate 30 (100 : ℚ)) = 100 :=
    meanLast_replicate 20 30 100 (by norm_num) (by norm_num)
  have hupper : bbUpperRaw (List.replicate 30 (100 : ℚ)) = 100 := by
    rw [bbUpperRaw, stdLast20, hvar, hmean]
    simp
  have hlower : bbLowerRaw (List.replicate 30 (100 : ℚ)) = 100 := by
    rw [bbLowerRaw, stdLast20, hvar, hmean]
    simp
  simp only [bollinger, hupper, hlower, sub_self, lt_irrefl, if_false,
    roundToR_two_hundred]

/-- C4: at 30 bars of constant `close = 100.0` and `volume = 1000`, the
engine reports `sma_20 = 100`, `bb_upper = bb_lower = 100`, `bb_pct` null,
`macd = macd_signal = macd_hist = 0`, `rsi_14` null, `volume_ratio = 1`,
`sma_50` null, and `trend = "bearish"` from votes `B = 0`, `S = 2`. -/
theorem flat_thirty_snapshot :
    (compute_technicals (flatBars 30)).sma_20 = some 100 ∧
    (compute_technicals (flatBars 30)).bb_upper = some 100 ∧
    (compute_technicals (flatBars 30)).bb_lower = some 100 ∧
    (compute_technicals (flatBars 30)).bb_pct = none ∧
    (compute_technicals (flatBars 30)).macd = some 0 ∧
    (compute_technicals (flatBars 30)).macd_signal = some 0 ∧
    (compute_technicals (flatBars 30)).macd_hist = some 0 ∧
    (compute_technicals (flatBars 30)).rsi_14 = none ∧
    (compute_technicals (flatBars 30)).volume_ratio = some 1 ∧
    (compute_technicals (flatBars 30)).sma_50 = none ∧
    bullishVotes (compute_technicals (flatBars 30)).rsi_14
      (compute_technicals (flatBars 30)).macd_hist
      (compute_technicals (flatBars 30)).sma_20
      (compute_technicals (flatBars 30)).sma_50
      (lastD ((flatBars 30).map Bar.close)) = 0 ∧
    bearishVotes (compute_technicals (flatBars 30)).rsi_14
      (compute_technicals (flatBars 30)).macd_hist
      (compute_technicals (flatBars 30)).sma_20
      (compute_technicals (flatBars 30)).sma_50
      (lastD ((flatBars 30).map Bar.close)) = 2 ∧
    (compute_technicals (flatBars 30)).trend = some "bearish" := by
  have hlen : (flatBars 30).length = 30 := by simp [flatBars]
  have h14 : 14 ≤ (flatBars 30).length := by omega
  have hc : (flatBars 30).map Bar.close = List.replicate 30 (100 : ℚ) := by
    simp [flatBars, flatBar, List.map_replicate]
  have hv : (flatBars 30).map Bar.volume =
      List.replicate 30 (1000 : ℚ) := by
    simp [flatBars, flatBar, List.map_replicate]
  have hprice : lastD ((flatBars 30).map Bar.close) = 100 := by
    rw [hc, lastD_replicate 30 100 (by norm_num)]
  have hsma20 : (compute_technicals (flatBars 30)).sma_20 = some 100 := by
    rw [sma_20_eq _ h14, if_pos (by omega), hc, sma,
      meanLast_replicate 20 30 100 (by norm_num) (by norm_num),
      roundTo_two_hundred]
  have hbbu : (compute_technicals (flatBars 30)).bb_upper = some 100 := by
    rw [bb_upper_eq _ h14, if_pos (by omega), hc, bollinger_flat30]
  have hbbl : (compute_technicals (flatBars 30)).bb_lower = some 100 := by
    rw [bb_lower_eq _ h14, if_pos (by omega), hc, bollinger_flat30]
  have hbbp : (compute_technicals (flatBars 30)).bb_pct = none := by
    rw [bb_pct_eq _ h14, if_pos (by omega), hc, bollinger_flat30]
  have hmacd : (compute_technicals (flatBars 30)).macd = some 0 := by
    rw [macd_eq _ h14, if_pos (by omega), hc, macdTriple_flat30]
  have hsig : (compute_technicals (flatBars 30)).macd_signal = some 0 := by
    rw [macd_signal_eq _ h14, if_pos (by omega), hc, macdTriple_flat30]
  have hhist : (compute_technicals (flatBars 30)).macd_hist = some 0 := by
    rw [macd_hist_eq _ h14, if_pos (by omega), hc, macdTriple_flat30]
  have hrsi : (compute_technicals (flatBars 30)).rsi_14 = none := by
    rw [rsi_14_eq _ h14, hc, rsi14]
    rw [losses_replicate, meanLast_replicate_zero]
    simp
  have hvr : (compute_technicals (flatBars 30)).volume_ratio = some 1 := by
    rw [volume_ratio_eq _ h14, if_pos (by omega), hv, volumeRatio]
    rw [meanLast_replicate 20 30 1000 (by norm_num) (by norm_num),
      lastD_replicate 30 1000 (by norm_num)]
    rw [if_pos (by norm_num)]
    norm_num [roundTo_one]
  have hs50 : (compute_technicals (flatBars 30)).sma_50 = none := by
    rw [sma_50_eq _ h14, if_neg (by omega)]
  have hbulls : bullishVotes (compute_technicals (flatBars 30)).rsi_14
      (compute_technicals (flatBars 30)).macd_hist
      (compute_technicals (flatBars 30)).sma_20
      (compute_technicals (flatBars 30)).sma_50
      (lastD ((flatBars 30).map Bar.close)) = 0 := by
    rw [hrsi, hhist, hsma20, hs50, hprice]
    norm_num [bullishVotes]
  have hbears : bearishVotes (compute_technicals (flatBars 30)).rsi_14
      (compute_technicals (flatBars 30)).macd_hist
      (compute_technicals (flatBars 30)).sma_20
      (compute_technicals (flatBars 30)).sma_50
      (lastD ((flatBars 30).map Bar.close)) = 2 := by
    rw [hrsi, hhist, hsma20, hs50, hprice]
    norm_num [bearishVotes]
  have htrend : (compute_technicals (flatBars 30)).trend =
      some "bearish" := by
    rw [trend_eq _ h14, hbulls, hbears]
    norm_num [classifyTrend]
  exact ⟨hsma20, hbbu, hbbl, hbbp, hmacd, hsig, hhist, hrsi, hvr, hs50,
    hbulls, hbears, htrend⟩

end JaxTrading
